import Mathlib

/-!
Shallow embedding of the qubit lineage / builder core of the RustQIP repository
(src/src/qubits.rs and src/src/qip/utils.rs), with the operator-descriptor type
of src/qip-iterators/src/iterators/ops.rs.

Modelling conventions:
* Rust u64 / usize values are Lean Nat.  The index/id counters are modelled as
  unbounded naturals (wraparound past 2^64 would require more than 2^64
  allocated indices).  The bit-twiddling utilities in utils.rs and the usize
  sizing shift 1 << (2*len) inside mat are modelled with explicit 64-bit
  checked semantics: a shift amount of 64 or more and a product or sum that
  does not fit in a u64 are arithmetic overflows, which Rust defines as a
  program error (a runtime panic under the checked/debug profile).
* A Rust function returning Result yields Except Failure; Err(msg) becomes
  Failure.error msg.  A Rust panic (unwrap of an Err/None, out-of-bounds
  vector indexing, arithmetic overflow) becomes Failure.fatal, so that
  recoverable errors and panic-class failures stay distinguishable.
* Functions taking &mut self are given the builder state explicitly and
  return it next to their result.  When a call fails, no claim observes the
  builder afterwards, so the updated counters are not threaded out of a
  failing call.
* Complex f64 matrix entries are never inspected by the embedded code (only
  matrix lengths steer control flow), so the entry type Cpx keeps two opaque
  integer components.  Likewise the f64 phase returned by function-op
  closures is modelled as an Int.
-/

namespace RustQIP

/-- Outcome of a fallible Rust computation: a returned Err value, or a panic
(unwrap failure, out-of-bounds index, arithmetic overflow). -/
inductive Failure where
  | error (msg : String)
  | fatal (msg : String)
deriving DecidableEq, Repr

/-- Rust Err(msg). -/
def rerr {α : Type} (msg : String) : Except Failure α :=
  Except.error (Failure.error msg)

/-- Rust panic with a message. -/
def rfatal {α : Type} (msg : String) : Except Failure α :=
  Except.error (Failure.fatal msg)

/-- Rust Result::unwrap: passes an Ok value through and turns an Err into a
panic; a panic that already happened keeps propagating. -/
def unwrap {α : Type} (x : Except Failure α) : Except Failure α :=
  match x with
  | Except.ok a => Except.ok a
  | Except.error (Failure.error _) => Except.error (Failure.fatal "called unwrap on an Err value")
  | Except.error (Failure.fatal m) => Except.error (Failure.fatal m)

/-! u64/usize checked arithmetic.  A shift amount of 64 or more, and a
product or sum exceeding the u64 range, are arithmetic overflows: a program
error in Rust, raised as a panic under the checked (debug/test) profile.
usize is 64 bits on the targets this crate supports, so the same operations
model usize arithmetic. -/

/-- The u64 modulus. -/
def U64_MOD : Nat := 2 ^ 64

/-- u64/usize left shift with Rust's checked-overflow semantics. -/
def checked_shl (num shift : Nat) : Except Failure Nat :=
  if shift ≥ 64 then rfatal "attempt to shift left with overflow"
  else Except.ok ((num <<< shift) % U64_MOD)

/-- u64 right shift with Rust's checked-overflow semantics. -/
def checked_shr (num shift : Nat) : Except Failure Nat :=
  if shift ≥ 64 then rfatal "attempt to shift right with overflow"
  else Except.ok (num >>> shift)

/-- u64 multiplication with Rust's checked-overflow semantics. -/
def checked_mul (a b : Nat) : Except Failure Nat :=
  if a * b < U64_MOD then Except.ok (a * b)
  else rfatal "attempt to multiply with overflow"

/-- u64 addition with Rust's checked-overflow semantics. -/
def checked_add (a b : Nat) : Except Failure Nat :=
  if a + b < U64_MOD then Except.ok (a + b)
  else rfatal "attempt to add with overflow"

/-- u64 bitwise negation. -/
def not64 (v : Nat) : Nat := (U64_MOD - 1) ^^^ v

/-- Matrix entry: Complex of f64 in the source.  The embedded code never
inspects entry values (only matrix lengths), so the components are opaque. -/
structure Cpx where
  re : Int
  im : Int
deriving DecidableEq, Repr

/-- Modelled from the spec: QubitOp lives in state_ops.rs, which is not under
src/; its variants follow the Operator Descriptor of spec section 3 and the
constructors used by qubits.rs (Matrix, Swap, Function) together with the
UnitaryOp enum of qip-iterators ops.rs (Matrix, SparseMatrix, Swap, Control:
control indices, target indices, child op).  The function-op closure
Box of Fn(u64) to (u64, f64) is a Lean function to a pair. -/
inductive QubitOp where
  | Matrix (indices : List Nat) (data : List Cpx)
  | SparseMatrix (indices : List Nat) (data : List (List (Nat × Cpx)))
  | Swap (a_indices : List Nat) (b_indices : List Nat)
  | Function (in_indices : List Nat) (out_indices : List Nat) (f : Nat → Nat × Int)
  | Control (c_indices : List Nat) (op_indices : List Nat) (op : QubitOp)

/-- Modelled from the spec: the indices a descriptor acts on, following
num_indices of ops.rs (Swap and Control reference both index lists). -/
def QubitOp.op_indices : QubitOp → List Nat
  | QubitOp.Matrix indices _ => indices
  | QubitOp.SparseMatrix indices _ => indices
  | QubitOp.Swap a b => a ++ b
  | QubitOp.Function i o _ => i ++ o
  | QubitOp.Control c t _ => c ++ t

/-- Modelled from the spec: make_control_op lives in state_ops.rs, absent from
src/; spec sections 3 and 4.2: it wraps an already-built child descriptor into
a Control variant carrying the control indices and the child's own indices. -/
def make_control_op (c_indices : List Nat) (op : QubitOp) : QubitOp :=
  QubitOp.Control c_indices op.op_indices op

/-- Modelled from the spec: StateModifier lives in pipeline.rs, absent from
src/; variants follow the constructor calls made by qubits.rs
(new_unitary(name, op), new_measurement(name, id, indices),
new_stochastic_measurement(name, id, indices)). -/
inductive StateModifier where
  | unitary (name : String) (op : QubitOp)
  | measurement (name : String) (id : Nat) (indices : List Nat)
  | stochasticMeasurement (name : String) (id : Nat) (indices : List Nat)

mutual
/-- Possible relations to a parent qubit (qubits.rs).  The Rc shared parent is
modelled by both children holding the parent value. -/
inductive Parent where
  | Owned (qubits : List Qubit) (modifier : Option StateModifier)
  | Shared (parent : Qubit)
/-- A qubit object, possibly representing multiple physical qubit indices
(qubits.rs): indices, parent, id. -/
inductive Qubit where
  | mk (indices : List Nat) (parent : Option Parent) (id : Nat)
end

/-- Field accessor for the indices of a Qubit. -/
def Qubit.indices : Qubit → List Nat
  | Qubit.mk is _ _ => is

/-- Field accessor for the parent of a Qubit. -/
def Qubit.parent : Qubit → Option Parent
  | Qubit.mk _ p _ => p

/-- Field accessor for the id of a Qubit. -/
def Qubit.id : Qubit → Nat
  | Qubit.mk _ _ i => i

/-- Vec sort() on u64 values, ascending.  Rust uses a stable merge sort; on a
total order over Nat any correct sort produces the same list, and insertion
sort keeps the definition structurally recursive (hence executable). -/
def sortAsc (l : List Nat) : List Nat := l.insertionSort (· ≤ ·)

/-- Qubit::new (qubits.rs): fails on an empty index list. -/
def Qubit.new (id : Nat) (indices : List Nat) : Except Failure Qubit :=
  if indices.isEmpty then
    rerr "Qubit must have nonzero number of indices."
  else
    Except.ok (Qubit.mk indices none id)

/-- Qubit::merge_with_modifier (qubits.rs): concatenates the input entities'
indices, sorts them, and records Owned lineage. -/
def Qubit.merge_with_modifier (id : Nat) (qubits : List Qubit)
    (modifier : Option StateModifier) : Qubit :=
  let all_indices := (qubits.map Qubit.indices).flatten
  Qubit.mk (sortAsc all_indices) (some (Parent.Owned qubits modifier)) id

/-- Qubit::split_absolute (qubits.rs): partition the parent's indices into the
selected ones and the remainder; both children share the retired parent. -/
def Qubit.split_absolute (ida idb : Nat) (q : Qubit) (selected_indices : List Nat) :
    Except Failure (Qubit × Qubit) :=
  if selected_indices.length = q.indices.length then
    rerr "Cannot split out all indices into own qubit."
  else if selected_indices.isEmpty then
    rerr "Must provide indices to split."
  else if selected_indices.any (fun indx => !(q.indices.contains indx)) then
    rerr "All indices must exist in qubit to be split."
  else
    let remaining := q.indices.filter (fun x => !(selected_indices.contains x))
    Except.ok
      (Qubit.mk selected_indices (some (Parent.Shared q)) ida,
       Qubit.mk remaining (some (Parent.Shared q)) idb)

/-- Rust vector indexing l[i] mapped over a list of positions, as in
indices.into_iter().map(|i| q.indices[i as usize]).collect(): panics at the
first out-of-bounds position. -/
def vecIndex (l : List Nat) : List Nat → Except Failure (List Nat)
  | [] => Except.ok []
  | i :: rest =>
    match l[i]? with
    | some v =>
      match vecIndex l rest with
      | Except.ok vs => Except.ok (v :: vs)
      | Except.error e => Except.error e
    | none => rfatal "index out of bounds: vector indexing panicked"

/-- Qubit::split (qubits.rs): relative-position form.  Note the bound check is
indx > len (strictly greater), so a position equal to the index count slips
through to the vector indexing below. -/
def Qubit.split (ida idb : Nat) (q : Qubit) (indices : List Nat) :
    Except Failure (Qubit × Qubit) :=
  if indices.any (fun indx => indx > q.indices.length) then
    rerr "All indices for splitting must be below q.n"
  else if indices.length = q.indices.length then
    rerr "Indices must leave at least one index."
  else if indices.isEmpty then
    rerr "Indices must contain at least one index."
  else
    match vecIndex q.indices indices with
    | Except.ok selected_indices => Qubit.split_absolute ida idb q selected_indices
    | Except.error e => Except.error e

/-- Qubit::n (qubits.rs). -/
def Qubit.n (q : Qubit) : Nat := q.indices.length

/-- OpBuilder (qubits.rs): next-free absolute index cursor and next-free
operation id cursor. -/
structure OpBuilder where
  qubit_index : Nat
  op_id : Nat
deriving DecidableEq, Repr

/-- OpBuilder::new / Default. -/
def OpBuilder.new : OpBuilder := OpBuilder.mk 0 0

/-- OpBuilder::get_op_id: returns the current id and bumps the counter. -/
def OpBuilder.get_op_id (b : OpBuilder) : Nat × OpBuilder :=
  (b.op_id, { b with op_id := b.op_id + 1 })

/-- OpBuilder::qubit (qubits.rs): reserve n fresh contiguous absolute indices. -/
def OpBuilder.qubit (b : OpBuilder) (n : Nat) : Except Failure (Qubit × OpBuilder) :=
  if n = 0 then
    rerr "Qubit n must be greater than 0."
  else
    let base_index := b.qubit_index
    let b1 := { b with qubit_index := b.qubit_index + n }
    let (oid, b2) := b1.get_op_id
    match Qubit.new oid (List.range' base_index n) with
    | Except.ok q => Except.ok (q, b2)
    | Except.error e => Except.error e

/-- UnitaryBuilder::split_absolute, OpBuilder impl (qubits.rs): allocate two
fresh ids and delegate to Qubit::split_absolute. -/
def OpBuilder.split_absolute (b : OpBuilder) (q : Qubit) (selected_indices : List Nat) :
    Except Failure ((Qubit × Qubit) × OpBuilder) :=
  let (ida, b1) := b.get_op_id
  let (idb, b2) := b1.get_op_id
  match Qubit.split_absolute ida idb q selected_indices with
  | Except.ok p => Except.ok (p, b2)
  | Except.error e => Except.error e

/-- UnitaryBuilder::split, default trait method as used by OpBuilder
(qubits.rs).  Same strict bound check as Qubit::split, with the emptiness and
leave-one checks ordered the other way round. -/
def OpBuilder.split (b : OpBuilder) (q : Qubit) (indices : List Nat) :
    Except Failure ((Qubit × Qubit) × OpBuilder) :=
  if indices.any (fun indx => indx > q.indices.length) then
    rerr "All indices for splitting must be below q.n"
  else if indices.isEmpty then
    rerr "Indices must contain at least one index."
  else if indices.length = q.indices.length then
    rerr "Indices must leave at least one index."
  else
    match vecIndex q.indices indices with
    | Except.ok selected_indices => OpBuilder.split_absolute b q selected_indices
    | Except.error e => Except.error e

/-- UnitaryBuilder::merge_with_op, OpBuilder impl (qubits.rs). -/
def OpBuilder.merge_with_op (b : OpBuilder) (qs : List Qubit) (op : Option QubitOp) :
    Qubit × OpBuilder :=
  let modifier := op.map (fun op => StateModifier.unitary "unitary" op)
  let (oid, b1) := b.get_op_id
  (Qubit.merge_with_modifier oid qs modifier, b1)

/-- UnitaryBuilder::merge, default trait method (qubits.rs). -/
def OpBuilder.merge (b : OpBuilder) (qs : List Qubit) : Qubit × OpBuilder :=
  OpBuilder.merge_with_op b qs none

/-- UnitaryBuilder::make_mat_op, default trait method (qubits.rs): no
validation of the data length here. -/
def OpBuilder.make_mat_op (_ : OpBuilder) (q : Qubit) (data : List Cpx) : QubitOp :=
  QubitOp.Matrix q.indices data

/-- UnitaryBuilder::make_swap_op, default trait method (qubits.rs). -/
def OpBuilder.make_swap_op (_ : OpBuilder) (qa qb : Qubit) : Except Failure QubitOp :=
  if qa.indices.length = qb.indices.length then
    Except.ok (QubitOp.Swap qa.indices qb.indices)
  else
    rerr "Swap must be made from two qubits of equal size."

/-- UnitaryBuilder::make_function_op, default trait method (qubits.rs). -/
def OpBuilder.make_function_op (_ : OpBuilder) (q_in q_out : Qubit) (f : Nat → Nat × Int) :
    QubitOp :=
  QubitOp.Function q_in.indices q_out.indices f

/-- The fold inside UnitaryBuilder::split_absolute_many (qubits.rs): split off
each group in order, unwrapping (hence panicking on) any failed split, and
push the split-off entity while folding the remainder forward. -/
def OpBuilder.split_absolute_many_go (b : OpBuilder) (qs : List Qubit) (q : Qubit) :
    List (List Nat) → Except Failure ((List Qubit × Qubit) × OpBuilder)
  | [] => Except.ok ((qs, q), b)
  | indices :: rest =>
    match unwrap (OpBuilder.split_absolute b q indices) with
    | Except.ok ((hq, tq), b1) => OpBuilder.split_absolute_many_go b1 (qs ++ [hq]) tq rest
    | Except.error e => Except.error e

/-- UnitaryBuilder::split_absolute_many, default trait method (qubits.rs). -/
def OpBuilder.split_absolute_many (b : OpBuilder) (q : Qubit) (index_groups : List (List Nat)) :
    Except Failure ((List Qubit × Qubit) × OpBuilder) :=
  OpBuilder.split_absolute_many_go b [] q index_groups

/-- UnitaryBuilder::split_all, default trait method (qubits.rs): one singleton
group per index except the last (Vec::pop), then split_absolute_many,
unwrapped, with the remainder pushed at the end. -/
def OpBuilder.split_all (b : OpBuilder) (q : Qubit) :
    Except Failure (List Qubit × OpBuilder) :=
  let indices := (q.indices.map (fun i => [i])).dropLast
  match unwrap (OpBuilder.split_absolute_many b q indices) with
  | Except.ok ((qs, q1), b1) => Except.ok (qs ++ [q1], b1)
  | Except.error e => Except.error e

/-- UnitaryBuilder::mat, OpBuilder impl (qubits.rs).  The broadcast branch
recurses on the single-index pieces produced by split_all; the recursion is
bounded by a fuel argument (the Rust recursion depth is at most two, because
every piece split_all yields has at most one index; the fuel is never
exhausted from the public entry point). -/
def OpBuilder.matGo : Nat → OpBuilder → Qubit → List Cpx → Except Failure (Qubit × OpBuilder)
  | 0, _, _, _ => rfatal "mat recursion fuel exhausted"
  | fuel + 1, b, q, m =>
    if q.indices.length > 1 ∧ m.length = 2 * 2 then
      match OpBuilder.split_all b q with
      | Except.error e => Except.error e
      | Except.ok (qs, b1) =>
        match qs.foldlM (fun acc piece =>
            match unwrap (OpBuilder.matGo fuel acc.2 piece m) with
            | Except.ok (q1, b2) => Except.ok (acc.1 ++ [q1], b2)
            | Except.error e => (Except.error e : Except Failure (List Qubit × OpBuilder)))
            (([] : List Qubit), b1) with
        | Except.error e => Except.error e
        | Except.ok (qs1, b2) =>
          let (q1, b3) := OpBuilder.merge_with_op b2 qs1 none
          Except.ok (q1, b3)
    else
      match checked_shl 1 (2 * q.indices.length) with
      | Except.error e => Except.error e
      | Except.ok expected_mat_size =>
        if expected_mat_size ≠ m.length then
          rerr "Matrix not of expected size"
        else
          let op := OpBuilder.make_mat_op b q m
          let (q1, b1) := OpBuilder.merge_with_op b [q] (some op)
          Except.ok (q1, b1)
termination_by structural fuel => fuel

/-- UnitaryBuilder::mat, OpBuilder impl: public entry point. -/
def OpBuilder.mat (b : OpBuilder) (q : Qubit) (m : List Cpx) :
    Except Failure (Qubit × OpBuilder) :=
  OpBuilder.matGo (q.indices.length + 1) b q m

/-- UnitaryBuilder::apply_function, OpBuilder impl (qubits.rs): merge the two
entities under a function descriptor, then split back on the recorded q_in
indices, unwrapping (hence panicking on) a failed split. -/
def OpBuilder.apply_function (b : OpBuilder) (q_in q_out : Qubit) (f : Nat → Nat × Int) :
    Except Failure ((Qubit × Qubit) × OpBuilder) :=
  let op := OpBuilder.make_function_op b q_in q_out f
  let in_indices := q_in.indices
  let (q, b1) := OpBuilder.merge_with_op b [q_in, q_out] (some op)
  match unwrap (OpBuilder.split_absolute b1 q in_indices) with
  | Except.ok (p, b2) => Except.ok (p, b2)
  | Except.error e => Except.error e

/-- UnitaryBuilder::swap, default trait method as used by OpBuilder
(qubits.rs): build the swap op, merge both entities under it, then split back
on qa's recorded indices. -/
def OpBuilder.swap (b : OpBuilder) (qa qb : Qubit) :
    Except Failure ((Qubit × Qubit) × OpBuilder) :=
  match OpBuilder.make_swap_op b qa qb with
  | Except.error e => Except.error e
  | Except.ok op =>
    let qa_indices := qa.indices
    let (q, b1) := OpBuilder.merge_with_op b [qa, qb] (some op)
    OpBuilder.split_absolute b1 q qa_indices

/-- ConditionalContextBuilder (qubits.rs): wraps a parent builder and holds
one control entity.  The Rust parent is a mutable reference to any
UnitaryBuilder; the claims only exercise the OpBuilder instantiation, which is
what is modelled here. -/
structure ConditionalContextBuilder where
  parent_builder : OpBuilder
  conditioned_qubit : Option Qubit

/-- UnitaryBuilder::with_context, OpBuilder impl (qubits.rs). -/
def OpBuilder.with_context (b : OpBuilder) (q : Qubit) : ConditionalContextBuilder :=
  ConditionalContextBuilder.mk b (some q)

/-- ConditionalContextBuilder::release_qubit (qubits.rs): panics when the
control slot is empty. -/
def ConditionalContextBuilder.release_qubit (b : ConditionalContextBuilder) :
    Except Failure Qubit :=
  match b.conditioned_qubit with
  | some q => Except.ok q
  | none => rfatal "Conditional context builder failed to populate qubit."

/-- ConditionalContextBuilder::get_conditional_qubit (qubits.rs):
Option::take().unwrap(), panicking when the slot is empty. -/
def ConditionalContextBuilder.get_conditional_qubit (b : ConditionalContextBuilder) :
    Except Failure (Qubit × ConditionalContextBuilder) :=
  match b.conditioned_qubit with
  | some q => Except.ok (q, { b with conditioned_qubit := none })
  | none => rfatal "called unwrap on a None value"

/-- ConditionalContextBuilder::set_conditional_qubit (qubits.rs). -/
def ConditionalContextBuilder.set_conditional_qubit (b : ConditionalContextBuilder)
    (cq : Qubit) : ConditionalContextBuilder :=
  { b with conditioned_qubit := some cq }

/-- ConditionalContextBuilder::make_mat_op (qubits.rs): wrap the parent's
matrix op with the held control indices; panics when the slot is empty. -/
def ConditionalContextBuilder.make_mat_op (b : ConditionalContextBuilder) (q : Qubit)
    (data : List Cpx) : Except Failure QubitOp :=
  match b.conditioned_qubit with
  | some cq => Except.ok (make_control_op cq.indices (OpBuilder.make_mat_op b.parent_builder q data))
  | none => rfatal "Conditional context builder failed to populate qubit."

/-- UnitaryBuilder::split_absolute, ConditionalContextBuilder impl
(qubits.rs): delegates to the parent builder. -/
def ConditionalContextBuilder.split_absolute (b : ConditionalContextBuilder) (q : Qubit)
    (selected_indices : List Nat) :
    Except Failure ((Qubit × Qubit) × ConditionalContextBuilder) :=
  match OpBuilder.split_absolute b.parent_builder q selected_indices with
  | Except.ok (p, pb) => Except.ok (p, { b with parent_builder := pb })
  | Except.error e => Except.error e

/-- UnitaryBuilder::merge_with_op, ConditionalContextBuilder impl (qubits.rs):
delegates to the parent builder. -/
def ConditionalContextBuilder.merge_with_op (b : ConditionalContextBuilder) (qs : List Qubit)
    (op : Option QubitOp) : Qubit × ConditionalContextBuilder :=
  let (q, pb) := OpBuilder.merge_with_op b.parent_builder qs op
  (q, { b with parent_builder := pb })

/-- The split_absolute_many fold for the conditioned builder (the default
trait method routes self.split_absolute to the parent builder). -/
def ConditionalContextBuilder.split_absolute_many_go (b : ConditionalContextBuilder)
    (qs : List Qubit) (q : Qubit) :
    List (List Nat) → Except Failure ((List Qubit × Qubit) × ConditionalContextBuilder)
  | [] => Except.ok ((qs, q), b)
  | indices :: rest =>
    match unwrap (ConditionalContextBuilder.split_absolute b q indices) with
    | Except.ok ((hq, tq), b1) =>
      ConditionalContextBuilder.split_absolute_many_go b1 (qs ++ [hq]) tq rest
    | Except.error e => Except.error e

/-- UnitaryBuilder::split_absolute_many, default trait method as used by
ConditionalContextBuilder. -/
def ConditionalContextBuilder.split_absolute_many (b : ConditionalContextBuilder) (q : Qubit)
    (index_groups : List (List Nat)) :
    Except Failure ((List Qubit × Qubit) × ConditionalContextBuilder) :=
  ConditionalContextBuilder.split_absolute_many_go b [] q index_groups

/-- UnitaryBuilder::split_all, default trait method as used by
ConditionalContextBuilder. -/
def ConditionalContextBuilder.split_all (b : ConditionalContextBuilder) (q : Qubit) :
    Except Failure (List Qubit × ConditionalContextBuilder) :=
  let indices := (q.indices.map (fun i => [i])).dropLast
  match unwrap (ConditionalContextBuilder.split_absolute_many b q indices) with
  | Except.ok ((qs, q1), b1) => Except.ok (qs ++ [q1], b1)
  | Except.error e => Except.error e

/-- UnitaryBuilder::mat, ConditionalContextBuilder impl (qubits.rs).  The
broadcast branch recurses through the conditioned builder; the non-broadcast
branch takes the control entity out, merges it with the operand under the
control-wrapped op, splits it back off and re-stores it.  Fuel bounds the
recursion exactly as for OpBuilder.matGo. -/
def ConditionalContextBuilder.matGo :
    Nat → ConditionalContextBuilder → Qubit → List Cpx →
    Except Failure (Qubit × ConditionalContextBuilder)
  | 0, _, _, _ => rfatal "mat recursion fuel exhausted"
  | fuel + 1, b, q, m =>
    if q.indices.length > 1 ∧ m.length = 2 * 2 then
      match ConditionalContextBuilder.split_all b q with
      | Except.error e => Except.error e
      | Except.ok (qs, b1) =>
        match qs.foldlM (fun acc piece =>
            match unwrap (ConditionalContextBuilder.matGo fuel acc.2 piece m) with
            | Except.ok (q1, b2) => Except.ok (acc.1 ++ [q1], b2)
            | Except.error e =>
              (Except.error e : Except Failure (List Qubit × ConditionalContextBuilder)))
            (([] : List Qubit), b1) with
        | Except.error e => Except.error e
        | Except.ok (qs1, b2) =>
          let (q1, b3) := ConditionalContextBuilder.merge_with_op b2 qs1 none
          Except.ok (q1, b3)
    else
      match checked_shl 1 (2 * q.indices.length) with
      | Except.error e => Except.error e
      | Except.ok expected_mat_size =>
        if expected_mat_size ≠ m.length then
          rerr "Matrix not of expected size"
        else
          match ConditionalContextBuilder.make_mat_op b q m with
          | Except.error e => Except.error e
          | Except.ok op =>
            match ConditionalContextBuilder.get_conditional_qubit b with
            | Except.error e => Except.error e
            | Except.ok (cq, b1) =>
              let cq_indices := cq.indices
              let (q1, b2) := ConditionalContextBuilder.merge_with_op b1 [cq, q] (some op)
              match unwrap (ConditionalContextBuilder.split_absolute b2 q1 cq_indices) with
              | Except.error e => Except.error e
              | Except.ok ((cq1, q2), b3) =>
                Except.ok (q2, ConditionalContextBuilder.set_conditional_qubit b3 cq1)
termination_by structural fuel => fuel

/-- UnitaryBuilder::mat, ConditionalContextBuilder impl: public entry point. -/
def ConditionalContextBuilder.mat (b : ConditionalContextBuilder) (q : Qubit)
    (m : List Cpx) : Except Failure (Qubit × ConditionalContextBuilder) :=
  ConditionalContextBuilder.matGo (q.indices.length + 1) b q m

/-! Bit index utilities (src/src/qip/utils.rs), over the checked u64
arithmetic defined above. -/

/-- set_bit (utils.rs): set the bit_index bit in num to value. -/
def set_bit (num bit_index : Nat) (value : Bool) : Except Failure Nat :=
  match checked_shl 1 bit_index with
  | Except.error e => Except.error e
  | Except.ok v => if value then Except.ok (num ||| v) else Except.ok (num &&& not64 v)

/-- get_bit (utils.rs): read the bit_index bit of num. -/
def get_bit (num bit_index : Nat) : Except Failure Bool :=
  match checked_shr num bit_index with
  | Except.error e => Except.error e
  | Except.ok s => Except.ok (s &&& 1 != 0)

/-- The loop body of entwine_bits (utils.rs): for i in 0..n, consume the low
bit of off_bits or on_bits according to the low selector bit and deposit it at
position i of the result. -/
def entwineGo : Nat → Nat → Nat → Nat → Nat → Nat → Except Failure Nat
  | 0, _, _, _, _, result => Except.ok result
  | rem + 1, i, selector, off_bits, on_bits, result =>
    if selector &&& 1 = 0 then
      let bit := off_bits &&& 1
      match checked_shl bit i with
      | Except.error e => Except.error e
      | Except.ok shifted =>
        entwineGo rem (i + 1) (selector >>> 1) (off_bits >>> 1) on_bits (result ||| shifted)
    else
      let bit := on_bits &&& 1
      match checked_shl bit i with
      | Except.error e => Except.error e
      | Except.ok shifted =>
        entwineGo rem (i + 1) (selector >>> 1) off_bits (on_bits >>> 1) (result ||| shifted)

/-- entwine_bits (utils.rs). -/
def entwine_bits (n selector off_bits on_bits : Nat) : Except Failure Nat :=
  entwineGo n 0 selector off_bits on_bits 0

/-- get_flat_index (utils.rs): i * 2^nindices + j with u64 arithmetic. -/
def get_flat_index (nindices i j : Nat) : Except Failure Nat :=
  match checked_shl 1 nindices with
  | Except.error e => Except.error e
  | Except.ok mat_side =>
    match checked_mul i mat_side with
    | Except.error e => Except.error e
    | Except.ok prod =>
      match checked_add prod j with
      | Except.error e => Except.error e
      | Except.ok r => Except.ok r

/-! ### Basic lemmas about the embedded operations -/

@[simp]
lemma Qubit.indices_mk (is : List Nat) (p : Option Parent) (i : Nat) :
    (Qubit.mk is p i).indices = is := rfl

lemma sortAsc_mem {l : List Nat} {x : Nat} : x ∈ sortAsc l ↔ x ∈ l :=
  List.mem_insertionSort _

lemma sortAsc_sorted (l : List Nat) : List.Sorted (· ≤ ·) (sortAsc l) :=
  List.sorted_insertionSort _ l

lemma sortAsc_length (l : List Nat) : (sortAsc l).length = l.length :=
  (List.perm_insertionSort _ l).length_eq

lemma sortAsc_singleton (x : Nat) : sortAsc [x] = [x] := rfl

/-- Success case of Qubit::split_absolute: the selected indices are returned
verbatim in the first child, the remainder in the second. -/
lemma Qubit.split_absolute_eq_ok (ida idb : Nat) (q : Qubit) (sel : List Nat)
    (h1 : sel.length ≠ q.indices.length) (h2 : sel ≠ [])
    (h3 : ∀ x ∈ sel, x ∈ q.indices) :
    Qubit.split_absolute ida idb q sel =
      Except.ok
        (Qubit.mk sel (some (Parent.Shared q)) ida,
         Qubit.mk (q.indices.filter (fun x => !(sel.contains x)))
           (some (Parent.Shared q)) idb) := by
  unfold Qubit.split_absolute
  split_ifs with hh1 hh2 hh3
  · exact absurd hh1 h1
  · exact absurd (by simpa using hh2) h2
  · exfalso
    obtain ⟨x, hx, hcx⟩ := List.any_eq_true.1 hh3
    have hmem := h3 x hx
    simp [List.contains, hmem] at hcx
  · rfl

/-- Inversion of a successful Qubit::split_absolute. -/
lemma Qubit.split_absolute_ok_inv {ida idb : Nat} {q a c : Qubit} {sel : List Nat}
    (h : Qubit.split_absolute ida idb q sel = Except.ok (a, c)) :
    sel.length ≠ q.indices.length ∧ sel ≠ [] ∧ (∀ x ∈ sel, x ∈ q.indices) ∧
      a = Qubit.mk sel (some (Parent.Shared q)) ida ∧
      c = Qubit.mk (q.indices.filter (fun x => !(sel.contains x)))
            (some (Parent.Shared q)) idb := by
  unfold Qubit.split_absolute at h
  split_ifs at h with h1 h2 h3
  · exact absurd h (by simp [rerr])
  · exact absurd h (by simp [rerr])
  · exact absurd h (by simp [rerr])
  · refine ⟨h1, by simpa using h2, ?_, ?_, ?_⟩
    · intro x hx
      by_contra hmem
      exact h3 (List.any_eq_true.2 ⟨x, hx, by simp [List.contains, hmem]⟩)
    · exact (Prod.mk.injEq _ _ _ _ ▸ (Except.ok.injEq _ _ ▸ h)).1.symm ▸ rfl
    · have := (Prod.mk.injEq _ _ _ _ ▸ (Except.ok.injEq _ _ ▸ h))
      exact this.2.symm ▸ rfl

/-- The index-set partition property of a successful Qubit::split_absolute. -/
lemma Qubit.split_absolute_partition {ida idb : Nat} {q a c : Qubit} {sel : List Nat}
    (h : Qubit.split_absolute ida idb q sel = Except.ok (a, c)) :
    (∀ x, ¬(x ∈ a.indices ∧ x ∈ c.indices)) ∧
      (∀ x, x ∈ q.indices ↔ (x ∈ a.indices ∨ x ∈ c.indices)) := by
  obtain ⟨-, -, h3, ha, hc⟩ := Qubit.split_absolute_ok_inv h
  subst ha; subst hc
  constructor
  · rintro x ⟨hxa, hxc⟩
    simp only [Qubit.indices_mk, List.mem_filter, Bool.not_eq_true',
      List.contains, List.elem_eq_mem, decide_eq_false_iff_not] at hxc
    exact hxc.2 hxa
  · intro x
    simp only [Qubit.indices_mk, List.mem_filter, Bool.not_eq_true',
      List.contains, List.elem_eq_mem, decide_eq_false_iff_not]
    constructor
    · intro hq
      by_cases hx : x ∈ sel
      · exact Or.inl hx
      · exact Or.inr ⟨hq, hx⟩
    · rintro (hx | ⟨hq, -⟩)
      · exact h3 x hx
      · exact hq

/-- A successful relative-form Qubit::split routes through split_absolute. -/
lemma Qubit.split_ok_inv {ida idb : Nat} {q a c : Qubit} {rel : List Nat}
    (h : Qubit.split ida idb q rel = Except.ok (a, c)) :
    ∃ sel, Qubit.split_absolute ida idb q sel = Except.ok (a, c) := by
  unfold Qubit.split at h
  split_ifs at h with h1 h2 h3
  · exact absurd h (by simp [rerr])
  · exact absurd h (by simp [rerr])
  · exact absurd h (by simp [rerr])
  · revert h
    cases hv : vecIndex q.indices rel with
    | ok sel => exact fun h => ⟨sel, h⟩
    | error e => exact fun h => absurd h (by simp)

/-! ### Claim theorems -/

/-- Claim C6: whenever split or split_absolute succeeds, the two resulting
sibling entities have disjoint index sets whose union equals the parent's
index set. -/
theorem c6_split_partition (ida idb : Nat) (q : Qubit) (sel rel : List Nat)
    (a c a2 c2 : Qubit) :
    (Qubit.split_absolute ida idb q sel = Except.ok (a, c) →
      (∀ x, ¬(x ∈ a.indices ∧ x ∈ c.indices)) ∧
      (∀ x, x ∈ q.indices ↔ (x ∈ a.indices ∨ x ∈ c.indices))) ∧
    (Qubit.split ida idb q rel = Except.ok (a2, c2) →
      (∀ x, ¬(x ∈ a2.indices ∧ x ∈ c2.indices)) ∧
      (∀ x, x ∈ q.indices ↔ (x ∈ a2.indices ∨ x ∈ c2.indices))) := by
  constructor
  · exact fun h => Qubit.split_absolute_partition h
  · intro h
    obtain ⟨sel2, h2⟩ := Qubit.split_ok_inv h
    exact Qubit.split_absolute_partition h2

/-- Witness for C6 at a concrete split of a three-index entity. -/
theorem c6_split_partition_witness :
    (∀ x, ¬(x ∈ (Qubit.mk [1] (some (Parent.Shared (Qubit.mk [0, 1, 2] none 0))) 10).indices ∧
        x ∈ (Qubit.mk [0, 2] (some (Parent.Shared (Qubit.mk [0, 1, 2] none 0))) 11).indices)) ∧
    (∀ x, x ∈ (Qubit.mk [0, 1, 2] none 0).indices ↔
      (x ∈ (Qubit.mk [1] (some (Parent.Shared (Qubit.mk [0, 1, 2] none 0))) 10).indices ∨
       x ∈ (Qubit.mk [0, 2] (some (Parent.Shared (Qubit.mk [0, 1, 2] none 0))) 11).indices)) :=
  (c6_split_partition 10 11 (Qubit.mk [0, 1, 2] none 0) [1] [1]
    (Qubit.mk [1] (some (Parent.Shared (Qubit.mk [0, 1, 2] none 0))) 10)
    (Qubit.mk [0, 2] (some (Parent.Shared (Qubit.mk [0, 1, 2] none 0))) 11)
    (Qubit.mk [1] (some (Parent.Shared (Qubit.mk [0, 1, 2] none 0))) 10)
    (Qubit.mk [0, 2] (some (Parent.Shared (Qubit.mk [0, 1, 2] none 0))) 11)).1 rfl

/-- Claim C7: splitting an entity into (A, B) and then merging (A, B) yields
an entity whose index sequence is sorted and equal, as a set, to the original
entity's index set. -/
theorem c7_split_merge_roundtrip (ida idb idm : Nat) (q a c : Qubit) (sel : List Nat)
    (modifier : Option StateModifier)
    (h : Qubit.split_absolute ida idb q sel = Except.ok (a, c)) :
    List.Sorted (· ≤ ·) (Qubit.merge_with_modifier idm [a, c] modifier).indices ∧
    (∀ x, x ∈ (Qubit.merge_with_modifier idm [a, c] modifier).indices ↔ x ∈ q.indices) := by
  have hmerged : (Qubit.merge_with_modifier idm [a, c] modifier).indices =
      sortAsc (a.indices ++ (c.indices ++ [])) := rfl
  constructor
  · rw [hmerged]; exact sortAsc_sorted _
  · intro x
    rw [hmerged, sortAsc_mem]
    have hpart := (Qubit.split_absolute_partition h).2 x
    simp only [List.append_nil, List.mem_append]
    tauto

/-- Witness for C7 at a concrete split of a three-index entity followed by the
merge of the two children. -/
theorem c7_split_merge_roundtrip_witness :
    List.Sorted (· ≤ ·) (Qubit.merge_with_modifier 12
      [Qubit.mk [1] (some (Parent.Shared (Qubit.mk [0, 1, 2] none 0))) 10,
       Qubit.mk [0, 2] (some (Parent.Shared (Qubit.mk [0, 1, 2] none 0))) 11] none).indices ∧
    (∀ x, x ∈ (Qubit.merge_with_modifier 12
      [Qubit.mk [1] (some (Parent.Shared (Qubit.mk [0, 1, 2] none 0))) 10,
       Qubit.mk [0, 2] (some (Parent.Shared (Qubit.mk [0, 1, 2] none 0))) 11] none).indices ↔
      x ∈ (Qubit.mk [0, 1, 2] none 0).indices) :=
  c7_split_merge_roundtrip 10 11 12 (Qubit.mk [0, 1, 2] none 0)
    (Qubit.mk [1] (some (Parent.Shared (Qubit.mk [0, 1, 2] none 0))) 10)
    (Qubit.mk [0, 2] (some (Parent.Shared (Qubit.mk [0, 1, 2] none 0))) 11)
    [1] none rfl

/-- unwrap passes Ok values through unchanged. -/
lemma unwrap_ok {α : Type} (a : α) : unwrap (Except.ok a) = Except.ok a := rfl

/-- Success case of the OpBuilder split_absolute: two fresh ids are consumed. -/
lemma OpBuilder.split_absolute_builder_eq_ok (b : OpBuilder) (q : Qubit) (sel : List Nat)
    (h1 : sel.length ≠ q.indices.length) (h2 : sel ≠ [])
    (h3 : ∀ x ∈ sel, x ∈ q.indices) :
    OpBuilder.split_absolute b q sel =
      Except.ok
        ((Qubit.mk sel (some (Parent.Shared q)) b.op_id,
          Qubit.mk (q.indices.filter (fun x => !(sel.contains x)))
            (some (Parent.Shared q)) (b.op_id + 1)),
         { b with op_id := b.op_id + 2 }) := by
  unfold OpBuilder.split_absolute OpBuilder.get_op_id
  dsimp only
  rw [Qubit.split_absolute_eq_ok _ _ _ _ h1 h2 h3]

/-- The first component of merge_with_op: sorted concatenation of the input
entities' indices. -/
lemma OpBuilder.merge_with_op_fst (b : OpBuilder) (qs : List Qubit) (op : Option QubitOp) :
    (OpBuilder.merge_with_op b qs op).1 =
      Qubit.mk (sortAsc ((qs.map Qubit.indices).flatten))
        (some (Parent.Owned qs (op.map (fun op => StateModifier.unitary "unitary" op))))
        b.op_id := rfl

/-- The second component of merge_with_op: one id consumed. -/
lemma OpBuilder.merge_with_op_snd (b : OpBuilder) (qs : List Qubit) (op : Option QubitOp) :
    (OpBuilder.merge_with_op b qs op).2 = { b with op_id := b.op_id + 1 } := rfl

/-- Success of OpBuilder::qubit for a positive index count. -/
lemma OpBuilder.qubit_eq_ok (b : OpBuilder) (n : Nat) (h : 0 < n) :
    OpBuilder.qubit b n =
      Except.ok
        (Qubit.mk (List.range' b.qubit_index n) none b.op_id,
         OpBuilder.mk (b.qubit_index + n) (b.op_id + 1)) := by
  unfold OpBuilder.qubit OpBuilder.get_op_id Qubit.new
  rw [if_neg (Nat.pos_iff_ne_zero.1 h)]
  have hne2 : List.range' b.qubit_index n ≠ [] := by
    intro heq
    have hlen := congrArg List.length heq
    simp at hlen
    omega
  have hne : (List.range' b.qubit_index n).isEmpty = false := by
    simp [List.isEmpty_eq_true, hne2]
  simp only [hne, Bool.false_eq_true, if_false]

/-- Claim C1 (code bug): for a relative position equal to the parent's index
count, both relative-form split operations pass the strict bound check
(indx > len) and then panic on out-of-bounds vector indexing instead of
returning the named error; a position strictly greater than the count does
return the named error, showing the intended bound. -/
theorem c1_relative_split_bound :
    Qubit.split 10 11 (Qubit.mk [20, 21, 22] none 0) [3] =
      Except.error (Failure.fatal "index out of bounds: vector indexing panicked") ∧
    OpBuilder.split (OpBuilder.mk 3 1) (Qubit.mk [20, 21, 22] none 0) [3] =
      Except.error (Failure.fatal "index out of bounds: vector indexing panicked") ∧
    Qubit.split 10 11 (Qubit.mk [20, 21, 22] none 0) [4] =
      Except.error (Failure.error "All indices for splitting must be below q.n") :=
  ⟨rfl, rfl, rfl⟩

/-- Counterexample to claim C3: merging the empty list of entities yields an
entity whose indices list is empty. -/
theorem c3_counterexample : (Qubit.merge_with_modifier 0 [] none).indices = [] := rfl

/-- Claim C3 as amended: Qubit::new rejects an empty index list, and a merge
of a non-empty list of entities that all have non-empty indices yields an
entity with non-empty indices (but merging the empty list of entities does
produce an entity with an empty indices list, see the counterexample). -/
theorem c3_nonempty_indices (id0 : Nat) (qs : List Qubit) (modifier : Option StateModifier)
    (h1 : qs ≠ []) (h2 : ∀ q1 ∈ qs, q1.indices ≠ []) :
    Qubit.new id0 [] =
      Except.error (Failure.error "Qubit must have nonzero number of indices.") ∧
    (Qubit.merge_with_modifier id0 qs modifier).indices ≠ [] := by
  refine ⟨rfl, ?_⟩
  obtain ⟨q, qs', rfl⟩ := List.exists_cons_of_ne_nil h1
  obtain ⟨y, hy⟩ := List.exists_mem_of_ne_nil _ (h2 q (by simp))
  have hmem : y ∈ (Qubit.merge_with_modifier id0 (q :: qs') modifier).indices := by
    show y ∈ sortAsc (((q :: qs').map Qubit.indices).flatten)
    rw [sortAsc_mem]
    simp only [List.map_cons, List.flatten_cons, List.mem_append]
    exact Or.inl hy
  exact List.ne_nil_of_mem hmem

/-- Witness for C3 (amended) at a concrete one-entity merge. -/
theorem c3_nonempty_indices_witness :
    Qubit.new 7 [] =
      Except.error (Failure.error "Qubit must have nonzero number of indices.") ∧
    (Qubit.merge_with_modifier 7 [Qubit.mk [4] none 0] none).indices ≠ [] :=
  c3_nonempty_indices 7 [Qubit.mk [4] none 0] none (by simp)
    (by intro q1 hq1; simp at hq1; subst hq1; simp)

/-- Claim C5: qubit(0) fails; for positive counts qubit(n) returns the next n
contiguous fresh absolute indices and advances the cursor past them, so the
ranges of consecutive calls are disjoint, contiguous and strictly
increasing. -/
theorem c5_qubit_allocation (b : OpBuilder) (n1 n2 : Nat) (h1 : 0 < n1) (h2 : 0 < n2) :
    OpBuilder.qubit b 0 = Except.error (Failure.error "Qubit n must be greater than 0.") ∧
    ∃ q1 b1 q2 b2,
      OpBuilder.qubit b n1 = Except.ok (q1, b1) ∧
      q1.indices = List.range' b.qubit_index n1 ∧
      b1.qubit_index = b.qubit_index + n1 ∧
      (∀ i ∈ q1.indices, b.qubit_index ≤ i ∧ i < b1.qubit_index) ∧
      OpBuilder.qubit b1 n2 = Except.ok (q2, b2) ∧
      q2.indices = List.range' (b.qubit_index + n1) n2 ∧
      b2.qubit_index = b.qubit_index + n1 + n2 ∧
      (∀ i ∈ q1.indices, ∀ j ∈ q2.indices, i < j) := by
  refine ⟨rfl, Qubit.mk (List.range' b.qubit_index n1) none b.op_id,
    OpBuilder.mk (b.qubit_index + n1) (b.op_id + 1),
    Qubit.mk (List.range' (b.qubit_index + n1) n2) none (b.op_id + 1),
    OpBuilder.mk (b.qubit_index + n1 + n2) (b.op_id + 2),
    OpBuilder.qubit_eq_ok b n1 h1, rfl, rfl, ?_,
    OpBuilder.qubit_eq_ok (OpBuilder.mk (b.qubit_index + n1) (b.op_id + 1)) n2 h2, rfl, rfl, ?_⟩
  · intro i hi
    rw [Qubit.indices_mk, List.mem_range'_1] at hi
    exact ⟨hi.1, hi.2⟩
  · intro i hi j hj
    rw [Qubit.indices_mk, List.mem_range'_1] at hi hj
    omega

/-- Witness for C5 with two consecutive allocations of sizes 3 and 2. -/
theorem c5_qubit_allocation_witness :
    OpBuilder.qubit (OpBuilder.mk 0 0) 0 =
      Except.error (Failure.error "Qubit n must be greater than 0.") ∧
    ∃ q1 b1 q2 b2,
      OpBuilder.qubit (OpBuilder.mk 0 0) 3 = Except.ok (q1, b1) ∧
      q1.indices = List.range' 0 3 ∧
      b1.qubit_index = 0 + 3 ∧
      (∀ i ∈ q1.indices, 0 ≤ i ∧ i < b1.qubit_index) ∧
      OpBuilder.qubit b1 2 = Except.ok (q2, b2) ∧
      q2.indices = List.range' (0 + 3) 2 ∧
      b2.qubit_index = 0 + 3 + 2 ∧
      (∀ i ∈ q1.indices, ∀ j ∈ q2.indices, i < j) :=
  c5_qubit_allocation (OpBuilder.mk 0 0) 3 2 (by decide) (by decide)

/-- Length of the sorted merge of two entities' indices. -/
lemma sortAsc_pair_length (a c : List Nat) :
    (sortAsc (a ++ (c ++ []))).length = a.length + c.length := by
  rw [sortAsc_length]; simp

/-- Membership in the sorted merge of two entities' indices, left input. -/
lemma mem_sortAsc_pair_left {a c : List Nat} {x : Nat} (hx : x ∈ a) :
    x ∈ sortAsc (a ++ (c ++ [])) := by
  rw [sortAsc_mem]; simp [hx]

/-- Counterexample to claim C8: two entities with empty index lists have equal
index counts, yet swap fails (inside the post-merge split) rather than
succeeding. -/
theorem c8_counterexample :
    (Qubit.mk [] none 0).indices.length = (Qubit.mk [] none 1).indices.length ∧
    OpBuilder.swap (OpBuilder.mk 0 2) (Qubit.mk [] none 0) (Qubit.mk [] none 1) =
      Except.error (Failure.error "Cannot split out all indices into own qubit.") :=
  ⟨rfl, rfl⟩

/-- Claim C8 as amended: swap fails with the unequal-size error whenever the
index counts differ; when the counts are equal and the two entities have
non-empty, disjoint index lists, it succeeds and returns two entities whose
index sets equal the inputs' pre-swap index sets. -/
theorem c8_swap_partition (b : OpBuilder) (qa qb : Qubit)
    (h1 : qa.indices ≠ []) (h2 : qb.indices ≠ [])
    (hd : ∀ x ∈ qa.indices, x ∉ qb.indices) :
    (qa.indices.length ≠ qb.indices.length →
      OpBuilder.swap b qa qb =
        Except.error (Failure.error "Swap must be made from two qubits of equal size.")) ∧
    (qa.indices.length = qb.indices.length →
      ∃ qa1 qb1 b1, OpBuilder.swap b qa qb = Except.ok ((qa1, qb1), b1) ∧
        (∀ x, x ∈ qa1.indices ↔ x ∈ qa.indices) ∧
        (∀ x, x ∈ qb1.indices ↔ x ∈ qb.indices)) := by
  constructor
  · intro hne
    unfold OpBuilder.swap OpBuilder.make_swap_op
    rw [if_neg hne]
    rfl
  · intro heq
    have hstep : OpBuilder.swap b qa qb =
        OpBuilder.split_absolute { b with op_id := b.op_id + 1 }
          (Qubit.mk (sortAsc (qa.indices ++ (qb.indices ++ [])))
            (some (Parent.Owned [qa, qb]
              (some (StateModifier.unitary "unitary" (QubitOp.Swap qa.indices qb.indices)))))
            b.op_id)
          qa.indices := by
      unfold OpBuilder.swap OpBuilder.make_swap_op
      rw [if_pos heq]
      rfl
    rw [hstep, OpBuilder.split_absolute_builder_eq_ok]
    · refine ⟨_, _, _, rfl, fun x => Iff.rfl, ?_⟩
      intro x
      simp only [Qubit.indices_mk, List.mem_filter, sortAsc_mem, List.append_nil,
        List.mem_append, Bool.not_eq_true', List.contains, List.elem_eq_mem,
        decide_eq_false_iff_not]
      constructor
      · rintro ⟨hx | hx, hnotin⟩
        · exact absurd hx hnotin
        · exact hx
      · intro hx
        exact ⟨Or.inr hx, fun hxa => hd x hxa hx⟩
    · rw [Qubit.indices_mk, sortAsc_pair_length]
      have := List.length_pos.2 h2
      omega
    · exact h1
    · intro x hx
      rw [Qubit.indices_mk]
      exact mem_sortAsc_pair_left hx

/-- Witness for C8 (amended) at a concrete equal-size swap. -/
theorem c8_swap_partition_witness :
    ∃ qa1 qb1 b1,
      OpBuilder.swap (OpBuilder.mk 4 2) (Qubit.mk [0, 1] none 0) (Qubit.mk [2, 3] none 1) =
        Except.ok ((qa1, qb1), b1) ∧
      (∀ x, x ∈ qa1.indices ↔ x ∈ (Qubit.mk [0, 1] none 0).indices) ∧
      (∀ x, x ∈ qb1.indices ↔ x ∈ (Qubit.mk [2, 3] none 1).indices) :=
  (c8_swap_partition (OpBuilder.mk 4 2) (Qubit.mk [0, 1] none 0) (Qubit.mk [2, 3] none 1)
    (by simp) (by simp) (by decide)).2 rfl

/-- apply_function succeeds whenever both arguments have non-empty indices:
the post-merge split on q_in's recorded indices cannot fail. -/
lemma OpBuilder.apply_function_eq_ok (b : OpBuilder) (q_in q_out : Qubit) (f : Nat → Nat × Int)
    (h1 : q_in.indices ≠ []) (h2 : q_out.indices ≠ []) :
    ∃ p b2, OpBuilder.apply_function b q_in q_out f = Except.ok (p, b2) := by
  have hstep : OpBuilder.apply_function b q_in q_out f =
      match unwrap (OpBuilder.split_absolute { b with op_id := b.op_id + 1 }
        (Qubit.mk (sortAsc (q_in.indices ++ (q_out.indices ++ [])))
          (some (Parent.Owned [q_in, q_out]
            (some (StateModifier.unitary "unitary"
              (QubitOp.Function q_in.indices q_out.indices f)))))
          b.op_id)
        q_in.indices) with
      | Except.ok (p, b2) => Except.ok (p, b2)
      | Except.error e => Except.error e := rfl
  rw [hstep, OpBuilder.split_absolute_builder_eq_ok]
  · exact ⟨_, _, rfl⟩
  · rw [Qubit.indices_mk, sortAsc_pair_length]
    have := List.length_pos.2 h2
    omega
  · exact h1
  · intro x hx
    rw [Qubit.indices_mk]
    exact mem_sortAsc_pair_left hx

/-- Counterexample to claim C2: split_absolute_many panics (unwrap of an Err)
when a supplied group violates the split preconditions, here an empty group. -/
theorem c2_counterexample :
    OpBuilder.split_absolute_many (OpBuilder.mk 1 0) (Qubit.mk [0] none 0) [[]] =
      Except.error (Failure.fatal "called unwrap on an Err value") := rfl

/-- unwrap never returns a recoverable error: its result is Ok or a panic. -/
lemma unwrap_ok_or_fatal {α : Type} (x : Except Failure α) :
    (∃ a, unwrap x = Except.ok a) ∨ (∃ msg, unwrap x = Except.error (Failure.fatal msg)) := by
  cases x with
  | ok a => exact Or.inl ⟨a, rfl⟩
  | error e =>
    cases e with
    | error msg => exact Or.inr ⟨"called unwrap on an Err value", rfl⟩
    | fatal msg => exact Or.inr ⟨msg, rfl⟩

/-- The split_absolute_many fold either succeeds or panics: every inner split
failure is unwrapped, so a recoverable error is never surfaced. -/
lemma OpBuilder.split_absolute_many_go_ok_or_fatal :
    ∀ (groups : List (List Nat)) (b : OpBuilder) (acc : List Qubit) (q : Qubit),
      (∃ r, OpBuilder.split_absolute_many_go b acc q groups = Except.ok r) ∨
      (∃ msg, OpBuilder.split_absolute_many_go b acc q groups =
        Except.error (Failure.fatal msg)) := by
  intro groups
  induction groups with
  | nil => intro b acc q; exact Or.inl ⟨_, rfl⟩
  | cons g gs ih =>
    intro b acc q
    have hstep : OpBuilder.split_absolute_many_go b acc q (g :: gs) =
        match unwrap (OpBuilder.split_absolute b q g) with
        | Except.ok ((hq, tq), b1) =>
          OpBuilder.split_absolute_many_go b1 (acc ++ [hq]) tq gs
        | Except.error e => Except.error e := rfl
    rcases unwrap_ok_or_fatal (OpBuilder.split_absolute b q g) with ⟨r, hr⟩ | ⟨msg, hmsg⟩
    · obtain ⟨⟨hq, tq⟩, b1⟩ := r
      rw [hstep, hr]
      exact ih b1 (acc ++ [hq]) tq
    · rw [hstep, hmsg]
      exact Or.inr ⟨msg, rfl⟩

/-- split_absolute_many either succeeds or panics, for every argument. -/
lemma OpBuilder.split_absolute_many_ok_or_fatal (b : OpBuilder) (q : Qubit)
    (groups : List (List Nat)) :
    (∃ r, OpBuilder.split_absolute_many b q groups = Except.ok r) ∨
    (∃ msg, OpBuilder.split_absolute_many b q groups =
      Except.error (Failure.fatal msg)) :=
  OpBuilder.split_absolute_many_go_ok_or_fatal groups b [] q

/-- apply_function with an empty-index second argument panics: the post-merge
split would have to take all indices. -/
lemma OpBuilder.apply_function_empty_out (b : OpBuilder) (i1 i2 x : Nat)
    (g : Nat → Nat × Int) :
    OpBuilder.apply_function b (Qubit.mk [x] none i1) (Qubit.mk [] none i2) g =
      Except.error (Failure.fatal "called unwrap on an Err value") := rfl

/-- A relative split position equal to the index count of a parent with at
least two indices panics by out-of-bounds vector indexing. -/
lemma Qubit.split_oob (ida idb i0 : Nat) (l : List Nat) (p : Option Parent)
    (hl : 2 ≤ l.length) :
    Qubit.split ida idb (Qubit.mk l p i0) [l.length] =
      Except.error (Failure.fatal "index out of bounds: vector indexing panicked") := by
  have hc1 : ¬(([l.length] : List Nat).any
      (fun indx => indx > (Qubit.mk l p i0).indices.length) = true) := by simp
  have hc2 : ¬(([l.length] : List Nat).length = (Qubit.mk l p i0).indices.length) := by
    simp only [Qubit.indices_mk, List.length_cons, List.length_nil]
    omega
  have hc3 : ¬(([l.length] : List Nat).isEmpty = true) := by simp
  unfold Qubit.split
  rw [if_neg hc1, if_neg hc2, if_neg hc3]
  have hnone : l[l.length]? = none := by
    rw [List.getElem?_eq_none]
    exact le_refl _
  unfold vecIndex
  rw [Qubit.indices_mk, hnone]
  rfl

/-- Claim C2 as amended: releasing or using a conditioned builder with an
empty control slot is indeed a panic-class failure, but these are not the
only panics: split_absolute_many never surfaces a recoverable error — for
every argument it either succeeds or panics, and a group violating the split
preconditions (for example an empty group) panics; apply_function panics when
its post-merge split on q_in's recorded indices fails (for example an
empty-index q_out), although it never panics when both arguments have
non-empty index lists; and a relative split position equal to the parent's
index count (on a parent with at least two indices) panics by out-of-bounds
indexing, the C1 bug. -/
theorem c2_panic_inventory (b b2 b3 pb : OpBuilder) (q q_in q_out : Qubit)
    (f g : Nat → Nat × Int) (groups : List (List Nat))
    (ida idb i0 i1 i2 x : Nat) (l : List Nat) (p : Option Parent)
    (h1 : q_in.indices ≠ []) (h2 : q_out.indices ≠ []) (hl : 2 ≤ l.length) :
    ConditionalContextBuilder.release_qubit (ConditionalContextBuilder.mk pb none) =
      Except.error (Failure.fatal "Conditional context builder failed to populate qubit.") ∧
    ConditionalContextBuilder.get_conditional_qubit (ConditionalContextBuilder.mk pb none) =
      Except.error (Failure.fatal "called unwrap on a None value") ∧
    ((∃ r, OpBuilder.split_absolute_many b q groups = Except.ok r) ∨
      (∃ msg, OpBuilder.split_absolute_many b q groups =
        Except.error (Failure.fatal msg))) ∧
    OpBuilder.split_absolute_many (OpBuilder.mk 1 0) (Qubit.mk [0] none 0) [[]] =
      Except.error (Failure.fatal "called unwrap on an Err value") ∧
    OpBuilder.apply_function b2 (Qubit.mk [x] none i1) (Qubit.mk [] none i2) g =
      Except.error (Failure.fatal "called unwrap on an Err value") ∧
    (∃ r b4, OpBuilder.apply_function b3 q_in q_out f = Except.ok (r, b4)) ∧
    Qubit.split ida idb (Qubit.mk l p i0) [l.length] =
      Except.error (Failure.fatal "index out of bounds: vector indexing panicked") :=
  ⟨rfl, rfl, OpBuilder.split_absolute_many_ok_or_fatal b q groups, rfl,
    OpBuilder.apply_function_empty_out b2 i1 i2 x g,
    OpBuilder.apply_function_eq_ok b3 q_in q_out f h1 h2,
    Qubit.split_oob ida idb i0 l p hl⟩

/-- Witness for C2 (amended) at concrete arguments. -/
theorem c2_panic_inventory_witness :
    ConditionalContextBuilder.release_qubit
        (ConditionalContextBuilder.mk (OpBuilder.mk 0 0) none) =
      Except.error (Failure.fatal "Conditional context builder failed to populate qubit.") ∧
    ConditionalContextBuilder.get_conditional_qubit
        (ConditionalContextBuilder.mk (OpBuilder.mk 0 0) none) =
      Except.error (Failure.fatal "called unwrap on a None value") ∧
    ((∃ r, OpBuilder.split_absolute_many (OpBuilder.mk 1 0) (Qubit.mk [0] none 0) [[]] =
        Except.ok r) ∨
      (∃ msg, OpBuilder.split_absolute_many (OpBuilder.mk 1 0) (Qubit.mk [0] none 0) [[]] =
        Except.error (Failure.fatal msg))) ∧
    OpBuilder.split_absolute_many (OpBuilder.mk 1 0) (Qubit.mk [0] none 0) [[]] =
      Except.error (Failure.fatal "called unwrap on an Err value") ∧
    OpBuilder.apply_function (OpBuilder.mk 2 0) (Qubit.mk [7] none 3) (Qubit.mk [] none 4)
        (fun y => (y, 0)) =
      Except.error (Failure.fatal "called unwrap on an Err value") ∧
    (∃ r b4, OpBuilder.apply_function (OpBuilder.mk 2 0) (Qubit.mk [0] none 0)
        (Qubit.mk [1] none 1) (fun y => (y, 0)) = Except.ok (r, b4)) ∧
    Qubit.split 10 11 (Qubit.mk [20, 21, 22] none 0) [([20, 21, 22] : List Nat).length] =
      Except.error (Failure.fatal "index out of bounds: vector indexing panicked") :=
  c2_panic_inventory (OpBuilder.mk 1 0) (OpBuilder.mk 2 0) (OpBuilder.mk 2 0)
    (OpBuilder.mk 0 0) (Qubit.mk [0] none 0) (Qubit.mk [0] none 0) (Qubit.mk [1] none 1)
    (fun y => (y, 0)) (fun y => (y, 0)) [[]] 10 11 0 3 4 7 [20, 21, 22] none
    (by simp) (by simp) (by decide)

/-- Filtering a singleton selection out of a duplicate-free list removes
exactly the head. -/
lemma filter_singleton_head {x : Nat} {t : List Nat} (hx : x ∉ t) :
    ((x :: t).filter (fun y => !(([x] : List Nat).contains y))) = t := by
  rw [List.filter_cons]
  have hpx : ([x] : List Nat).contains x = true := by simp [List.contains]
  simp only [hpx, Bool.not_true, Bool.false_eq_true, if_false]
  rw [List.filter_eq_self]
  intro a ha
  have hax : a ≠ x := fun h => hx (h ▸ ha)
  simp [List.contains, hax]

/-- Flattening a list of singletons gives back the original list. -/
lemma flatten_map_singleton (l : List Nat) :
    (l.map (fun i => ([i] : List Nat))).flatten = l := by
  induction l with
  | nil => rfl
  | cons x t ih => simp [ih]

/-- The split_absolute_many fold over singleton groups taken from the front of
a duplicate-free index list peels the singletons off one by one, leaving the
remainder. -/
lemma OpBuilder.split_absolute_many_go_singletons :
    ∀ (l rest : List Nat) (b : OpBuilder) (q : Qubit) (acc : List Qubit),
      q.indices = l ++ rest → (l ++ rest).Nodup → rest ≠ [] →
      ∃ (qs : List Qubit) (qrem : Qubit) (b1 : OpBuilder),
        OpBuilder.split_absolute_many_go b acc q (l.map (fun i => [i])) =
          Except.ok ((acc ++ qs, qrem), b1) ∧
        qs.map Qubit.indices = l.map (fun i => [i]) ∧
        qrem.indices = rest := by
  intro l
  induction l with
  | nil =>
    intro rest b q acc hq hnd hrest
    exact ⟨[], q, b, by simp [OpBuilder.split_absolute_many_go], rfl, by simpa using hq⟩
  | cons x l ih =>
    intro rest b q acc hq hnd hrest
    rw [List.cons_append] at hq hnd
    have hxq : x ∈ q.indices := by rw [hq]; exact List.mem_cons_self x _
    have hlen : ([x] : List Nat).length ≠ q.indices.length := by
      rw [hq]
      have : rest.length > 0 := List.length_pos.2 hrest
      simp only [List.length_cons, List.length_append, List.length_nil]
      omega
    have hsplit := OpBuilder.split_absolute_builder_eq_ok b q [x] hlen (by simp)
      (by intro y hy; rw [List.mem_singleton] at hy; exact hy ▸ hxq)
    have hrem : q.indices.filter (fun y => !(([x] : List Nat).contains y)) = l ++ rest := by
      rw [hq]
      exact filter_singleton_head (List.nodup_cons.1 hnd).1
    obtain ⟨qs, qrem, b1, hgo, hmap, hqrem⟩ :=
      ih rest { b with op_id := b.op_id + 2 }
        (Qubit.mk (q.indices.filter (fun y => !(([x] : List Nat).contains y)))
          (some (Parent.Shared q)) (b.op_id + 1))
        (acc ++ [Qubit.mk [x] (some (Parent.Shared q)) b.op_id])
        (by rw [Qubit.indices_mk]; exact hrem)
        (List.nodup_cons.1 hnd).2 hrest
    refine ⟨Qubit.mk [x] (some (Parent.Shared q)) b.op_id :: qs, qrem, b1, ?_, ?_, hqrem⟩
    · show OpBuilder.split_absolute_many_go b acc q ([x] :: l.map (fun i => [i])) = _
      unfold OpBuilder.split_absolute_many_go
      rw [hsplit, unwrap_ok]
      dsimp only
      rw [hgo]
      simp
    · simp [hmap]

/-- split_all on a duplicate-free, non-empty index list succeeds and yields
one single-index entity per index, in order. -/
lemma OpBuilder.split_all_singletons (b : OpBuilder) (q : Qubit)
    (hnd : q.indices.Nodup) (hne : q.indices ≠ []) :
    ∃ qs b1, OpBuilder.split_all b q = Except.ok (qs, b1) ∧
      qs.map Qubit.indices = q.indices.map (fun i => [i]) := by
  have hsplit : q.indices = q.indices.dropLast ++ [q.indices.getLast hne] :=
    (List.dropLast_append_getLast hne).symm
  have groups : (q.indices.map (fun i => ([i] : List Nat))).dropLast =
      q.indices.dropLast.map (fun i => [i]) := (List.map_dropLast _ _).symm
  obtain ⟨qs, qrem, b1, hgo, hmap, hqrem⟩ :=
    OpBuilder.split_absolute_many_go_singletons q.indices.dropLast
      [q.indices.getLast hne] b q [] hsplit (hsplit ▸ hnd) (by simp)
  rw [List.nil_append] at hgo
  refine ⟨qs ++ [qrem], b1, ?_, ?_⟩
  · simp only [OpBuilder.split_all, OpBuilder.split_absolute_many]
    rw [groups, hgo, unwrap_ok]
  · rw [List.map_append, hmap]
    conv_rhs => rw [hsplit]
    rw [List.map_append]
    simp [hqrem]

/-- For shift amounts below the u64 width, the checked shift of 1 computes
the power of two. -/
lemma checked_shl_one_ok {s : Nat} (h : s < 64) : checked_shl 1 s = Except.ok (2 ^ s) := by
  unfold checked_shl
  rw [if_neg (by omega), Nat.one_shiftLeft]
  congr 1
  exact Nat.mod_eq_of_lt (Nat.pow_lt_pow_right (by norm_num) h)

/-- On a single-index entity with a 2x2 matrix, mat takes the non-broadcast
branch and returns a merged entity with the same single index. -/
lemma OpBuilder.matGo_single (fuel : Nat) (b : OpBuilder) (p : Qubit) (m : List Cpx)
    (hp : p.indices.length = 1) (hm : m.length = 4) :
    ∃ q1, OpBuilder.matGo (fuel + 1) b p m =
        Except.ok (q1, { b with op_id := b.op_id + 1 }) ∧
      q1.indices = p.indices := by
  obtain ⟨x, hx⟩ : ∃ x, p.indices = [x] := List.length_eq_one.1 hp
  have hc1 : ¬(p.indices.length > 1 ∧ m.length = 2 * 2) := by
    rintro ⟨hgt, -⟩
    rw [hp] at hgt
    exact absurd hgt (by decide)
  have hshl : checked_shl 1 (2 * p.indices.length) = Except.ok (2 ^ (2 * p.indices.length)) :=
    checked_shl_one_ok (by omega)
  have hc2 : ¬(2 ^ (2 * p.indices.length) ≠ m.length) := by
    rw [hp, hm]
    decide
  refine ⟨(OpBuilder.merge_with_op b [p] (some (OpBuilder.make_mat_op b p m))).1, ?_, ?_⟩
  · simp only [OpBuilder.matGo, if_neg hc1]
    rw [hshl]
    dsimp only
    rw [if_neg hc2]
    rfl
  · rw [OpBuilder.merge_with_op_fst, Qubit.indices_mk]
    simp [hx, sortAsc_singleton]

/-- The broadcast fold inside mat: applied to single-index pieces it succeeds,
consumes one id per piece, and returns entities with the same indices. -/
lemma OpBuilder.mat_fold_singletons (fu : Nat) (hfu : fu ≠ 0) (m : List Cpx)
    (hm : m.length = 4) :
    ∀ (pieces : List Qubit) (b : OpBuilder) (acc : List Qubit),
      (∀ p ∈ pieces, p.indices.length = 1) →
      ∃ qs1 b1,
        List.foldlM (fun acc2 piece =>
            match unwrap (OpBuilder.matGo fu acc2.2 piece m) with
            | Except.ok (q1, b2) => Except.ok (acc2.1 ++ [q1], b2)
            | Except.error e => (Except.error e : Except Failure (List Qubit × OpBuilder)))
          (acc, b) pieces =
          Except.ok (acc ++ qs1, b1) ∧
        qs1.map Qubit.indices = pieces.map Qubit.indices := by
  obtain ⟨f0, rfl⟩ : ∃ f0, fu = f0 + 1 := ⟨fu - 1, by omega⟩
  intro pieces
  induction pieces with
  | nil =>
    intro b acc _
    exact ⟨[], b, by rw [List.append_nil]; rfl, rfl⟩
  | cons p t ih =>
    intro b acc h
    obtain ⟨q1, hq1, hq1i⟩ := OpBuilder.matGo_single f0 b p m (h p (by simp)) hm
    obtain ⟨qs1, b1, hfold, hmap⟩ :=
      ih { b with op_id := b.op_id + 1 } (acc ++ [q1]) (fun p2 hp2 => h p2 (by simp [hp2]))
    refine ⟨q1 :: qs1, b1, ?_, by simp [hmap, hq1i]⟩
    have hgoal : (acc ++ [q1]) ++ qs1 = acc ++ q1 :: qs1 := by simp
    rw [← hgoal, List.foldlM_cons]
    dsimp only
    rw [hq1, unwrap_ok]
    exact hfold

/-- The broadcast branch of mat on a duplicate-free multi-index entity:
success, with the result carrying the sorted original indices. -/
lemma OpBuilder.mat_broadcast (b : OpBuilder) (q : Qubit) (m : List Cpx)
    (h1 : 1 < q.indices.length) (hm : m.length = 4) (hnd : q.indices.Nodup) :
    ∃ q1 b1, OpBuilder.mat b q m = Except.ok (q1, b1) ∧ q1.indices = sortAsc q.indices := by
  have hne : q.indices ≠ [] := by
    intro h
    rw [h] at h1
    exact absurd h1 (by decide)
  obtain ⟨qs, bs, hsplit, hmap⟩ := OpBuilder.split_all_singletons b q hnd hne
  have hpieces : ∀ p ∈ qs, p.indices.length = 1 := by
    intro p hp
    have hmem : p.indices ∈ qs.map Qubit.indices := List.mem_map_of_mem _ hp
    rw [hmap] at hmem
    obtain ⟨i, _, hi⟩ := List.mem_map.1 hmem
    rw [← hi]
    rfl
  obtain ⟨qs1, b1, hfold, hmap1⟩ :=
    OpBuilder.mat_fold_singletons q.indices.length (by omega) m hm qs bs [] hpieces
  rw [List.nil_append] at hfold
  refine ⟨(OpBuilder.merge_with_op b1 qs1 none).1, (OpBuilder.merge_with_op b1 qs1 none).2,
    ?_, ?_⟩
  · unfold OpBuilder.mat
    simp only [OpBuilder.matGo]
    rw [if_pos ⟨h1, by omega⟩, hsplit]
    dsimp only
    rw [hfold]
  · rw [OpBuilder.merge_with_op_fst, Qubit.indices_mk, hmap1, hmap, flatten_map_singleton]

/-- Counterexample to claim C4: a reachable 32-index entity with a 1-entry
matrix is neither the broadcast case nor correctly sized, so the claim
requires the sizing error; instead the usize shift 1 << (2*32) overflows and
the call panics before any sizing comparison. -/
theorem c4_counterexample :
    ¬(1 < (Qubit.mk (List.range' 0 32) none 0).indices.length ∧
        ([Cpx.mk 0 0] : List Cpx).length = 4) ∧
    ([Cpx.mk 0 0] : List Cpx).length ≠
      2 ^ (2 * (Qubit.mk (List.range' 0 32) none 0).indices.length) ∧
    OpBuilder.mat (OpBuilder.mk 32 1) (Qubit.mk (List.range' 0 32) none 0) [Cpx.mk 0 0] =
      Except.error (Failure.fatal "attempt to shift left with overflow") :=
  ⟨by decide, by decide, rfl⟩

/-- Claim C4 as amended: on a multi-index entity with a 2x2 (4-entry) matrix,
mat broadcasts and returns an entity addressing the same index set (for any
index count); otherwise, for entities with fewer than 32 indices — where the
usize shift 1 << (2 * count) does not overflow — it succeeds exactly when the
matrix length is 4^(index count) and a mismatch yields the sizing error,
while at 32 or more indices the shift itself overflows (a panic under the
checked profile) before any sizing comparison. -/
theorem c4_mat_sizing (b : OpBuilder) (q : Qubit) (m : List Cpx) (hnd : q.indices.Nodup) :
    (1 < q.indices.length ∧ m.length = 4 →
      ∃ q1 b1, OpBuilder.mat b q m = Except.ok (q1, b1) ∧
        (∀ x, x ∈ q1.indices ↔ x ∈ q.indices)) ∧
    (¬(1 < q.indices.length ∧ m.length = 4) → q.indices.length < 32 →
      ((∃ q1 b1, OpBuilder.mat b q m = Except.ok (q1, b1)) ↔
          m.length = 2 ^ (2 * q.indices.length)) ∧
      (m.length ≠ 2 ^ (2 * q.indices.length) →
        OpBuilder.mat b q m = Except.error (Failure.error "Matrix not of expected size"))) ∧
    (¬(1 < q.indices.length ∧ m.length = 4) → 32 ≤ q.indices.length →
      OpBuilder.mat b q m =
        Except.error (Failure.fatal "attempt to shift left with overflow")) := by
  refine ⟨?_, ?_, ?_⟩
  · rintro ⟨h1, hm⟩
    obtain ⟨q1, b1, hok, hind⟩ := OpBuilder.mat_broadcast b q m h1 hm hnd
    exact ⟨q1, b1, hok, fun x => by rw [hind, sortAsc_mem]⟩
  · intro hno hlt
    have hstep : OpBuilder.mat b q m =
        (if 2 ^ (2 * q.indices.length) ≠ m.length then
          rerr "Matrix not of expected size"
        else
          Except.ok ((OpBuilder.merge_with_op b [q] (some (OpBuilder.make_mat_op b q m))).1,
            (OpBuilder.merge_with_op b [q] (some (OpBuilder.make_mat_op b q m))).2)) := by
      unfold OpBuilder.mat
      simp only [OpBuilder.matGo]
      rw [if_neg (fun hcond => hno ⟨hcond.1, by omega⟩),
        checked_shl_one_ok (by omega : 2 * q.indices.length < 64)]
    rw [hstep]
    by_cases hsize : m.length = 2 ^ (2 * q.indices.length)
    · rw [if_neg (by omega)]
      exact ⟨⟨fun _ => hsize, fun _ => ⟨_, _, rfl⟩⟩, fun hcontra => absurd hsize hcontra⟩
    · rw [if_pos (by omega)]
      refine ⟨⟨?_, fun h => absurd h hsize⟩, fun _ => rfl⟩
      rintro ⟨q1, b1, hq⟩
      exact absurd hq (by simp [rerr])
  · intro hno hge
    have hshl : checked_shl 1 (2 * q.indices.length) =
        Except.error (Failure.fatal "attempt to shift left with overflow") := by
      unfold checked_shl
      rw [if_pos (by omega)]
      rfl
    unfold OpBuilder.mat
    simp only [OpBuilder.matGo]
    rw [if_neg (fun hcond => hno ⟨hcond.1, by omega⟩), hshl]

/-- Witness for C4: a 2x2 matrix broadcast over a three-index entity. -/
theorem c4_mat_sizing_witness :
    ∃ q1 b1, OpBuilder.mat (OpBuilder.mk 3 1) (Qubit.mk [2, 0, 1] none 0)
        [Cpx.mk 0 0, Cpx.mk 0 0, Cpx.mk 0 0, Cpx.mk 0 0] = Except.ok (q1, b1) ∧
      (∀ x, x ∈ q1.indices ↔ x ∈ (Qubit.mk [2, 0, 1] none 0).indices) :=
  (c4_mat_sizing (OpBuilder.mk 3 1) (Qubit.mk [2, 0, 1] none 0)
    [Cpx.mk 0 0, Cpx.mk 0 0, Cpx.mk 0 0, Cpx.mk 0 0] (by decide)).1 ⟨by decide, rfl⟩

/-- The conditioned builder's split_absolute simulates the parent's, leaving
the control slot untouched. -/
lemma ConditionalContextBuilder.split_absolute_sim (pb : OpBuilder) (c : Option Qubit)
    (q : Qubit) (sel : List Nat) :
    ConditionalContextBuilder.split_absolute (ConditionalContextBuilder.mk pb c) q sel =
      match OpBuilder.split_absolute pb q sel with
      | Except.ok (p, pb1) => Except.ok (p, ConditionalContextBuilder.mk pb1 c)
      | Except.error e => Except.error e := by
  cases h : OpBuilder.split_absolute pb q sel with
  | ok p =>
    obtain ⟨p1, pb1⟩ := p
    simp [ConditionalContextBuilder.split_absolute, h]
  | error e => simp [ConditionalContextBuilder.split_absolute, h]

/-- The conditioned builder's split_absolute_many fold simulates the
parent's, leaving the control slot untouched. -/
lemma ConditionalContextBuilder.split_absolute_many_go_sim (groups : List (List Nat)) :
    ∀ (pb : OpBuilder) (c : Option Qubit) (acc : List Qubit) (q : Qubit),
      ConditionalContextBuilder.split_absolute_many_go
          (ConditionalContextBuilder.mk pb c) acc q groups =
        match OpBuilder.split_absolute_many_go pb acc q groups with
        | Except.ok (r, pb1) => Except.ok (r, ConditionalContextBuilder.mk pb1 c)
        | Except.error e => Except.error e := by
  induction groups with
  | nil => intro pb c acc q; rfl
  | cons g gs ih =>
    intro pb c acc q
    have lhs_eq : ConditionalContextBuilder.split_absolute_many_go
        (ConditionalContextBuilder.mk pb c) acc q (g :: gs) =
        match unwrap (ConditionalContextBuilder.split_absolute
          (ConditionalContextBuilder.mk pb c) q g) with
        | Except.ok ((hq, tq), b1) =>
          ConditionalContextBuilder.split_absolute_many_go b1 (acc ++ [hq]) tq gs
        | Except.error e => Except.error e := rfl
    have rhs_eq : OpBuilder.split_absolute_many_go pb acc q (g :: gs) =
        match unwrap (OpBuilder.split_absolute pb q g) with
        | Except.ok ((hq, tq), b1) =>
          OpBuilder.split_absolute_many_go b1 (acc ++ [hq]) tq gs
        | Except.error e => Except.error e := rfl
    rw [lhs_eq, rhs_eq, ConditionalContextBuilder.split_absolute_sim]
    cases h : OpBuilder.split_absolute pb q g with
    | ok p =>
      obtain ⟨⟨hq, tq⟩, pb1⟩ := p
      exact ih pb1 c (acc ++ [hq]) tq
    | error e =>
      cases e with
      | error msg => rfl
      | fatal msg => rfl

/-- The conditioned builder's split_all simulates the parent's, leaving the
control slot untouched. -/
lemma ConditionalContextBuilder.split_all_sim (pb : OpBuilder) (c : Option Qubit) (q : Qubit) :
    ConditionalContextBuilder.split_all (ConditionalContextBuilder.mk pb c) q =
      match OpBuilder.split_all pb q with
      | Except.ok (qs, pb1) => Except.ok (qs, ConditionalContextBuilder.mk pb1 c)
      | Except.error e => Except.error e := by
  show (match unwrap (ConditionalContextBuilder.split_absolute_many
      (ConditionalContextBuilder.mk pb c) q ((q.indices.map (fun i => [i])).dropLast)) with
    | Except.ok ((qs, q1), b1) => Except.ok (qs ++ [q1], b1)
    | Except.error e => Except.error e) = _
  unfold ConditionalContextBuilder.split_absolute_many
  rw [ConditionalContextBuilder.split_absolute_many_go_sim]
  simp only [OpBuilder.split_all, OpBuilder.split_absolute_many]
  cases h : OpBuilder.split_absolute_many_go pb [] q ((q.indices.map (fun i => [i])).dropLast) with
  | ok r =>
    obtain ⟨⟨qs, q1⟩, pb1⟩ := r
    rfl
  | error e =>
    cases e with
    | error msg => rfl
    | fatal msg => rfl

/-- Success case of the conditioned builder's split_absolute. -/
lemma ConditionalContextBuilder.split_absolute_ccb_eq_ok (pb : OpBuilder) (c : Option Qubit)
    (q : Qubit) (sel : List Nat) (h1 : sel.length ≠ q.indices.length) (h2 : sel ≠ [])
    (h3 : ∀ x ∈ sel, x ∈ q.indices) :
    ConditionalContextBuilder.split_absolute (ConditionalContextBuilder.mk pb c) q sel =
      Except.ok
        ((Qubit.mk sel (some (Parent.Shared q)) pb.op_id,
          Qubit.mk (q.indices.filter (fun x => !(sel.contains x)))
            (some (Parent.Shared q)) (pb.op_id + 1)),
         ConditionalContextBuilder.mk { pb with op_id := pb.op_id + 2 } c) := by
  rw [ConditionalContextBuilder.split_absolute_sim,
    OpBuilder.split_absolute_builder_eq_ok pb q sel h1 h2 h3]

/-- The non-broadcast branch of the conditioned builder's mat: with a control
entity in the slot and a correctly sized matrix, the op is emitted and the
control is split back off with exactly its original indices. -/
lemma ConditionalContextBuilder.matGo_nonbroadcast (fuel : Nat) (pb : OpBuilder)
    (cq p : Qubit) (m : List Cpx)
    (hnb : ¬(p.indices.length > 1 ∧ m.length = 2 * 2))
    (hshift : 2 * p.indices.length < 64)
    (hsize : 2 ^ (2 * p.indices.length) = m.length)
    (hp : p.indices ≠ []) (hcq : cq.indices ≠ []) :
    ∃ q2 cq1 pb1,
      ConditionalContextBuilder.matGo (fuel + 1)
          (ConditionalContextBuilder.mk pb (some cq)) p m =
        Except.ok (q2, ConditionalContextBuilder.mk pb1 (some cq1)) ∧
      cq1.indices = cq.indices := by
  have hc2 : ¬(2 ^ (2 * p.indices.length) ≠ m.length) := fun h => h hsize
  simp only [ConditionalContextBuilder.matGo, if_neg hnb]
  rw [checked_shl_one_ok hshift]
  dsimp only
  rw [if_neg hc2]
  have e1 : ConditionalContextBuilder.make_mat_op
      (ConditionalContextBuilder.mk pb (some cq)) p m =
      Except.ok (make_control_op cq.indices (OpBuilder.make_mat_op pb p m)) := rfl
  have e2 : ConditionalContextBuilder.get_conditional_qubit
      (ConditionalContextBuilder.mk pb (some cq)) =
      Except.ok (cq, ConditionalContextBuilder.mk pb none) := rfl
  rw [e1, e2]
  dsimp only
  have e3 : ConditionalContextBuilder.merge_with_op (ConditionalContextBuilder.mk pb none)
      [cq, p] (some (make_control_op cq.indices (OpBuilder.make_mat_op pb p m))) =
      (Qubit.mk (sortAsc (cq.indices ++ (p.indices ++ [])))
        (some (Parent.Owned [cq, p] (some (StateModifier.unitary "unitary"
          (make_control_op cq.indices (OpBuilder.make_mat_op pb p m))))))
        pb.op_id,
       ConditionalContextBuilder.mk { pb with op_id := pb.op_id + 1 } none) := rfl
  rw [e3]
  dsimp only
  rw [ConditionalContextBuilder.split_absolute_ccb_eq_ok _ _ _ _
    (by rw [Qubit.indices_mk, sortAsc_pair_length]
        have := List.length_pos.2 hp
        omega)
    hcq
    (by intro x hx
        rw [Qubit.indices_mk]
        exact mem_sortAsc_pair_left hx),
    unwrap_ok]
  exact ⟨_, _, _, rfl, rfl⟩

/-- The conditioned broadcast fold: on single-index pieces every
sub-application is controlled and re-stores a control entity carrying exactly
the original control indices. -/
lemma ConditionalContextBuilder.mat_fold (fu : Nat) (hfu : fu ≠ 0) (m : List Cpx)
    (hm : m.length = 4) (S : List Nat) (hS : S ≠ []) :
    ∀ (pieces : List Qubit) (pb : OpBuilder) (cq : Qubit) (acc : List Qubit),
      cq.indices = S →
      (∀ p ∈ pieces, p.indices.length = 1) →
      ∃ qs1 pb1 cq1,
        List.foldlM (fun acc2 piece =>
            match unwrap (ConditionalContextBuilder.matGo fu acc2.2 piece m) with
            | Except.ok (q1, b2) => Except.ok (acc2.1 ++ [q1], b2)
            | Except.error e =>
              (Except.error e : Except Failure (List Qubit × ConditionalContextBuilder)))
          (acc, ConditionalContextBuilder.mk pb (some cq)) pieces =
          Except.ok (acc ++ qs1, ConditionalContextBuilder.mk pb1 (some cq1)) ∧
        cq1.indices = S := by
  obtain ⟨f0, rfl⟩ : ∃ f0, fu = f0 + 1 := ⟨fu - 1, by omega⟩
  intro pieces
  induction pieces with
  | nil =>
    intro pb cq acc hcq _
    exact ⟨[], pb, cq, by rw [List.append_nil]; rfl, hcq⟩
  | cons p t ih =>
    intro pb cq acc hcq h
    have hp1 : p.indices.length = 1 := h p (by simp)
    have hpne : p.indices ≠ [] := by
      intro hh
      rw [hh] at hp1
      exact absurd hp1 (by decide)
    have hnb : ¬(p.indices.length > 1 ∧ m.length = 2 * 2) := by
      rw [hp1]
      rintro ⟨hgt, -⟩
      exact absurd hgt (by decide)
    have hsz : 2 ^ (2 * p.indices.length) = m.length := by rw [hp1, hm]; decide
    have hcqne : cq.indices ≠ [] := by rw [hcq]; exact hS
    obtain ⟨q2, cq1, pb1, hmat, hcq1⟩ :=
      ConditionalContextBuilder.matGo_nonbroadcast f0 pb cq p m hnb (by omega) hsz hpne hcqne
    obtain ⟨qs1, pb2, cq2, hfold, hcq2⟩ :=
      ih pb1 cq1 (acc ++ [q2]) (by rw [hcq1, hcq]) (fun p2 hp2 => h p2 (by simp [hp2]))
    refine ⟨q2 :: qs1, pb2, cq2, ?_, hcq2⟩
    have hgoal : (acc ++ [q2]) ++ qs1 = acc ++ q2 :: qs1 := by simp
    rw [← hgoal, List.foldlM_cons]
    dsimp only
    rw [hmat, unwrap_ok]
    exact hfold

/-- In the non-broadcast case, the conditioned mat of an operand with 32 or
more indices dies on the overflowing usize sizing shift. -/
lemma ConditionalContextBuilder.mat_shift_overflow (pb : OpBuilder) (c : Option Qubit)
    (q : Qubit) (m : List Cpx)
    (hno : ¬(1 < q.indices.length ∧ m.length = 4)) (hge : 32 ≤ q.indices.length) :
    ConditionalContextBuilder.mat (ConditionalContextBuilder.mk pb c) q m =
      Except.error (Failure.fatal "attempt to shift left with overflow") := by
  have hshl : checked_shl 1 (2 * q.indices.length) =
      Except.error (Failure.fatal "attempt to shift left with overflow") := by
    unfold checked_shl
    rw [if_pos (by omega)]
    rfl
  show ConditionalContextBuilder.matGo (q.indices.length + 1)
    (ConditionalContextBuilder.mk pb c) q m = _
  simp only [ConditionalContextBuilder.matGo]
  rw [if_neg (fun hc => hno ⟨hc.1, by omega⟩), hshl]

/-- Counterexample to claim C9: at a reachable 32-index operand the
correctly-sized matrix would need 4^32 = 2^64 entries — more than a Rust
slice can hold — and the embedded conditioned mat panics on the overflowing
usize sizing shift instead of returning the control entity. -/
theorem c9_counterexample :
    (List.replicate (2 ^ 64) (Cpx.mk 0 0)).length =
      2 ^ (2 * (Qubit.mk (List.range' 0 32) none 1).indices.length) ∧
    ConditionalContextBuilder.mat
        (OpBuilder.with_context (OpBuilder.mk 40 0) (Qubit.mk [100] none 0))
        (Qubit.mk (List.range' 0 32) none 1)
        (List.replicate (2 ^ 64) (Cpx.mk 0 0)) =
      Except.error (Failure.fatal "attempt to shift left with overflow") := by
  constructor
  · rw [List.length_replicate]
    rfl
  · refine ConditionalContextBuilder.mat_shift_overflow (OpBuilder.mk 40 0)
      (some (Qubit.mk [100] none 0)) (Qubit.mk (List.range' 0 32) none 1)
      (List.replicate (2 ^ 64) (Cpx.mk 0 0)) ?_ (by decide)
    rintro ⟨-, h4⟩
    rw [List.length_replicate] at h4
    exact absurd h4 (by decide)

/-- Claim C9 as amended: building a conditioned context on a control entity,
applying one correctly-sized matrix op to a disjoint operand — a 2x2 matrix,
or a 4^(count)-entry matrix on an operand with fewer than 32 indices, the
only sizes whose slice can exist in Rust without overflowing the usize sizing
shift — and then releasing, returns a control entity whose indices are
exactly the original control indices. -/
theorem c9_conditioned_mat_release (pb : OpBuilder) (cq q : Qubit) (m : List Cpx)
    (h1 : cq.indices ≠ []) (h2 : q.indices ≠ []) (hnd : q.indices.Nodup)
    (hm : m.length = 4 ∨
      (m.length = 2 ^ (2 * q.indices.length) ∧ q.indices.length < 32)) :
    ∃ q1 b1 c1,
      ConditionalContextBuilder.mat (OpBuilder.with_context pb cq) q m =
        Except.ok (q1, b1) ∧
      ConditionalContextBuilder.release_qubit b1 = Except.ok c1 ∧
      c1.indices = cq.indices := by
  by_cases hb : 1 < q.indices.length ∧ m.length = 4
  · obtain ⟨hlen, hm4⟩ := hb
    obtain ⟨qs, pbs, hsplit, hmap⟩ := OpBuilder.split_all_singletons pb q hnd h2
    have hpieces : ∀ p ∈ qs, p.indices.length = 1 := by
      intro p hp
      have hmem : p.indices ∈ qs.map Qubit.indices := List.mem_map_of_mem _ hp
      rw [hmap] at hmem
      obtain ⟨i, _, hi⟩ := List.mem_map.1 hmem
      rw [← hi]
      rfl
    obtain ⟨qs1, pb1, cq1, hfold, hcq1⟩ :=
      ConditionalContextBuilder.mat_fold q.indices.length (by omega) m hm4 cq.indices h1
        qs pbs cq [] rfl hpieces
    rw [List.nil_append] at hfold
    refine ⟨(ConditionalContextBuilder.merge_with_op
        (ConditionalContextBuilder.mk pb1 (some cq1)) qs1 none).1,
      (ConditionalContextBuilder.merge_with_op
        (ConditionalContextBuilder.mk pb1 (some cq1)) qs1 none).2, cq1, ?_, rfl, hcq1⟩
    show ConditionalContextBuilder.matGo (q.indices.length + 1)
      (ConditionalContextBuilder.mk pb (some cq)) q m = _
    simp only [ConditionalContextBuilder.matGo]
    rw [if_pos ⟨hlen, by omega⟩, ConditionalContextBuilder.split_all_sim, hsplit]
    dsimp only
    rw [hfold]
  · have hbounds : 2 ^ (2 * q.indices.length) = m.length ∧ 2 * q.indices.length < 64 := by
      rcases hm with hm4 | ⟨hmp, hlt⟩
      · have hngt : ¬1 < q.indices.length := fun hgt => hb ⟨hgt, hm4⟩
        have hpos := List.length_pos.2 h2
        have hlen1 : q.indices.length = 1 := by omega
        refine ⟨?_, by omega⟩
        rw [hlen1, hm4]
        decide
      · exact ⟨hmp.symm, by omega⟩
    obtain ⟨q2, cq1, pb1, hmat, hcq1⟩ :=
      ConditionalContextBuilder.matGo_nonbroadcast q.indices.length pb cq q m
        (fun hc => hb ⟨hc.1, by omega⟩) hbounds.2 hbounds.1 h2 h1
    exact ⟨q2, ConditionalContextBuilder.mk pb1 (some cq1), cq1, hmat, rfl, hcq1⟩

/-- Witness for C9: a single-index control conditioning a 2x2 op on a
single-index operand. -/
theorem c9_conditioned_mat_release_witness :
    ∃ q1 b1 c1,
      ConditionalContextBuilder.mat
          (OpBuilder.with_context (OpBuilder.mk 2 0) (Qubit.mk [0] none 0))
          (Qubit.mk [1] none 1)
          [Cpx.mk 0 0, Cpx.mk 0 0, Cpx.mk 0 0, Cpx.mk 0 0] =
        Except.ok (q1, b1) ∧
      ConditionalContextBuilder.release_qubit b1 = Except.ok c1 ∧
      c1.indices = (Qubit.mk [0] none 0).indices :=
  c9_conditioned_mat_release (OpBuilder.mk 2 0) (Qubit.mk [0] none 0) (Qubit.mk [1] none 1)
    [Cpx.mk 0 0, Cpx.mk 0 0, Cpx.mk 0 0, Cpx.mk 0 0]
    (by simp) (by simp) (by simp) (Or.inl rfl)

/-- The entwine_bits loop completes without overflow as long as it deposits
bits at positions below 64. -/
lemma entwineGo_ok : ∀ (rem i selector off_bits on_bits result : Nat), i + rem ≤ 64 →
    ∃ v, entwineGo rem i selector off_bits on_bits result = Except.ok v := by
  intro rem
  induction rem with
  | zero =>
    intro i s offb onb r _
    exact ⟨r, rfl⟩
  | succ rem ih =>
    intro i s offb onb r h
    have hshl : ∀ b : Nat, checked_shl b i = Except.ok ((b <<< i) % U64_MOD) := by
      intro b
      unfold checked_shl
      rw [if_neg (by omega)]
    by_cases hs : s &&& 1 = 0
    · obtain ⟨v, hv⟩ := ih (i + 1) (s >>> 1) (offb >>> 1) onb
        (r ||| ((offb &&& 1) <<< i) % U64_MOD) (by omega)
      refine ⟨v, ?_⟩
      show (if s &&& 1 = 0 then _ else _) = _
      rw [if_pos hs]
      dsimp only
      rw [hshl]
      exact hv
    · obtain ⟨v, hv⟩ := ih (i + 1) (s >>> 1) offb (onb >>> 1)
        (r ||| ((onb &&& 1) <<< i) % U64_MOD) (by omega)
      refine ⟨v, ?_⟩
      show (if s &&& 1 = 0 then _ else _) = _
      rw [if_neg hs]
      dsimp only
      rw [hshl]
      exact hv

/-- Counterexample to claim C10: at bit positions and widths of 64 or greater
every one of the four utility functions hits a shift overflow, a panic-class
arithmetic failure under Rust's checked (debug/test) profile, rather than
returning a value. -/
theorem c10_counterexample :
    set_bit 0 64 true = Except.error (Failure.fatal "attempt to shift left with overflow") ∧
    get_bit 0 64 = Except.error (Failure.fatal "attempt to shift right with overflow") ∧
    entwine_bits 65 0 0 0 =
      Except.error (Failure.fatal "attempt to shift left with overflow") ∧
    get_flat_index 64 0 0 =
      Except.error (Failure.fatal "attempt to shift left with overflow") :=
  ⟨rfl, rfl, rfl, rfl⟩

/-- Claim C10 as amended: get_bit, set_bit, entwine_bits and get_flat_index
are pure deterministic functions with no error results, and they are total
(never panic) for bit positions below 64, entwine widths of at most 64, and
get_flat_index arguments whose result fits in a u64; shift amounts of 64 or
more overflow (see the counterexample). -/
theorem c10_bit_utils_totality (num bit_index n selector off_bits on_bits nindices i j : Nat)
    (value : Bool) (h1 : bit_index < 64) (h2 : n ≤ 64) (h3 : nindices < 64)
    (h4 : i * 2 ^ nindices + j < 2 ^ 64) :
    (∃ v, set_bit num bit_index value = Except.ok v) ∧
    (∃ bv, get_bit num bit_index = Except.ok bv) ∧
    (∃ ev, entwine_bits n selector off_bits on_bits = Except.ok ev) ∧
    get_flat_index nindices i j = Except.ok (i * 2 ^ nindices + j) := by
  refine ⟨?_, ?_, ?_, ?_⟩
  · unfold set_bit checked_shl
    rw [if_neg (by omega : ¬bit_index ≥ 64)]
    cases value
    · exact ⟨_, rfl⟩
    · exact ⟨_, rfl⟩
  · unfold get_bit checked_shr
    rw [if_neg (by omega : ¬bit_index ≥ 64)]
    exact ⟨_, rfl⟩
  · exact entwineGo_ok n 0 selector off_bits on_bits 0 (by omega)
  · have hside : checked_shl 1 nindices = Except.ok (2 ^ nindices) := by
      unfold checked_shl
      rw [if_neg (by omega)]
      rw [Nat.one_shiftLeft]
      congr 1
      exact Nat.mod_eq_of_lt (Nat.pow_lt_pow_right (by norm_num) h3)
    have hmul : checked_mul i (2 ^ nindices) = Except.ok (i * 2 ^ nindices) := by
      unfold checked_mul
      rw [if_pos]
      exact Nat.lt_of_le_of_lt (Nat.le_add_right _ j) h4
    have hadd : checked_add (i * 2 ^ nindices) j = Except.ok (i * 2 ^ nindices + j) := by
      unfold checked_add
      rw [if_pos]
      exact h4
    unfold get_flat_index
    rw [hside]
    dsimp only
    rw [hmul]
    dsimp only
    rw [hadd]

/-- Witness for C10 (amended) at small concrete arguments. -/
theorem c10_bit_utils_totality_witness :
    (∃ v, set_bit 0 1 true = Except.ok v) ∧
    (∃ bv, get_bit 0 1 = Except.ok bv) ∧
    (∃ ev, entwine_bits 3 2 1 1 = Except.ok ev) ∧
    get_flat_index 2 3 1 = Except.ok (3 * 2 ^ 2 + 1) :=
  c10_bit_utils_totality 0 1 3 2 1 1 2 3 1 true (by decide) (by decide) (by decide)
    (by decide)

end RustQIP

